import Mathlib

/-!
Verification of the dimuon analysis pipeline (ROOT RDataFrame based).

The definitions below are a shallow embedding of `src/Analysis.cpp`
(`DimuonAnalysis::run`, `applyTriggerSelection`, `applyMuonSelection`,
`applyDimuonSelection`, `calculateInvariantMass`, `bookHistograms`,
`parseArgs`) and `src/main.cpp` (`main`).

Event columns carry their NanoAOD names.  Stored floating-point column
values are modelled as rationals (every float is a rational), the real-valued
kinematics (`cos`, `sin`, `sinh`, `sqrt`) is modelled over `ℝ`, and the final
`static_cast<float>` of the invariant mass is modelled as an abstract
rounding function applied to the exact result.
-/

namespace Dimuon

/-- The `AnalysisConfig` struct from `include/Analysis.h`. -/
structure AnalysisConfig where
  inputFile : String
  outputFile : String
  outputDir : String
  maxEvents : Option Nat
deriving Repr, DecidableEq

/-- One row of the `Events` tree: the columns the analysis reads.
Scalar booleans are the trigger flags; the `Muon_*` columns are
variable-length per-object arrays, index-aligned within one event. -/
structure Event where
  HLT_IsoMu24 : Bool
  HLT_IsoMu18 : Bool
  nJet : Nat
  Muon_pt : List ℚ
  Muon_eta : List ℚ
  Muon_phi : List ℚ
  Muon_mass : List ℚ
  Muon_charge : List ℤ
  Muon_tightId : List Bool
  Muon_pfRelIso04_all : List ℚ
deriving Repr, DecidableEq

/-- Data-model invariant: all per-muon array columns of one event share
the same length (NanoAOD guarantees index alignment of a collection). -/
def wellFormed (e : Event) : Prop :=
  e.Muon_eta.length = e.Muon_pt.length ∧
  e.Muon_phi.length = e.Muon_pt.length ∧
  e.Muon_mass.length = e.Muon_pt.length ∧
  e.Muon_charge.length = e.Muon_pt.length ∧
  e.Muon_tightId.length = e.Muon_pt.length ∧
  e.Muon_pfRelIso04_all.length = e.Muon_pt.length

instance (e : Event) : Decidable (wellFormed e) := by
  unfold wellFormed; infer_instance

/-- The per-muon quality cut of `applyMuonSelection`:
`pt > 20 && |eta| < 2.4 && tightId && pfRelIso04_all < 0.15`. -/
def muonCut (pt eta : ℚ) (tightId : Bool) (iso : ℚ) : Bool :=
  decide (pt > 20) && decide (|eta| < 2.4) && tightId && decide (iso < 0.15)

/-- Elementwise evaluation of the quality cut over the four aligned input
columns, as the `RVec` expression
`(pt > 20.0f) && (abs(eta) < 2.4f) && tightId && (pfRelIso04_all < 0.15f)`
computes it. -/
def mask4 : List ℚ → List ℚ → List Bool → List ℚ → List Bool
  | pt :: pts, eta :: etas, tid :: tids, iso :: isos =>
      muonCut pt eta tid iso :: mask4 pts etas tids isos
  | _, _, _, _ => []

/-- The `goodMuon_mask` column of `applyMuonSelection`. -/
def goodMuon_mask (e : Event) : List Bool :=
  mask4 e.Muon_pt e.Muon_eta e.Muon_tightId e.Muon_pfRelIso04_all

/-- The `nGoodMuon` column: `static_cast<int>(Sum(mask))`, the sum of the
0/1 entries of the mask. -/
def nGoodMuon (e : Event) : ℤ :=
  ((goodMuon_mask e).map (fun b => if b then (1 : ℤ) else 0)).sum

/-- Boolean masking of an `RVec` (`v[mask]`): keep, in order, the elements
whose mask entry is true. -/
def maskSelect {α : Type} : List Bool → List α → List α
  | true :: ms, x :: xs => x :: maskSelect ms xs
  | false :: ms, _ :: xs => maskSelect ms xs
  | _, _ => []

/-- The `goodMuon_pt` column: `Muon_pt[goodMuon_mask]`. -/
def goodMuon_pt (e : Event) : List ℚ := maskSelect (goodMuon_mask e) e.Muon_pt

/-- The `goodMuon_eta` column: `Muon_eta[goodMuon_mask]`. -/
def goodMuon_eta (e : Event) : List ℚ := maskSelect (goodMuon_mask e) e.Muon_eta

/-- The `goodMuon_phi` column: `Muon_phi[goodMuon_mask]`. -/
def goodMuon_phi (e : Event) : List ℚ := maskSelect (goodMuon_mask e) e.Muon_phi

/-- The `goodMuon_mass` column: `Muon_mass[goodMuon_mask]`. -/
def goodMuon_mass (e : Event) : List ℚ := maskSelect (goodMuon_mask e) e.Muon_mass

/-- The `goodMuon_charge` column: `Muon_charge[goodMuon_mask]`. -/
def goodMuon_charge (e : Event) : List ℤ := maskSelect (goodMuon_mask e) e.Muon_charge

/-- The `passTrigger` column of `applyTriggerSelection`:
`isoMu24 || isoMu18`. -/
def passTrigger (e : Event) : Bool := e.HLT_IsoMu24 || e.HLT_IsoMu18

/-- The predicate of the filter `"Exactly 2 good muons"`: `nGoodMuon == 2`. -/
def passPair (e : Event) : Bool := decide (nGoodMuon e = 2)

/-- The predicate of the filter `"Opposite-sign muons"`:
`charge[0] * charge[1] < 0` on `goodMuon_charge`.  An out-of-range `RVec`
access is modelled by the default value 0 (the filter only runs on rows
where both entries exist, see the in-bounds theorem). -/
def passOppositeSign (e : Event) : Bool :=
  decide ((goodMuon_charge e).getD 0 0 * (goodMuon_charge e).getD 1 0 < 0)

/-- The `Range(0, maxEvents)` node of `run`: with a row limit only the
first `n` rows of the source are exposed, otherwise all rows. -/
def applyRange (maxEvents : Option Nat) (events : List Event) : List Event :=
  match maxEvents with
  | some n => events.take n
  | none => events

/-- The concurrency toggle of `run`: `ROOT::EnableImplicitMT()` is called
exactly when no row limit is configured. -/
def multithreadingEnabled (maxEvents : Option Nat) : Bool :=
  maxEvents.isNone

/-- Rows surviving the trigger filter (declaration order: first filter). -/
def afterTrigger (events : List Event) : List Event :=
  events.filter passTrigger

/-- Rows surviving the exact-pair filter (second filter, applied to the
survivors of the trigger filter). -/
def afterPair (events : List Event) : List Event :=
  (afterTrigger events).filter passPair

/-- Rows surviving the opposite-sign filter (third filter, applied to the
survivors of the exact-pair filter). -/
def afterOppositeSign (events : List Event) : List Event :=
  (afterPair events).filter passOppositeSign

/-- The cutflow report of `df.Report()`: (label, pass-count) in filter
declaration order. -/
def cutflow (events : List Event) : List (String × Nat) :=
  [("Trigger selection (HLT_IsoMu24 || HLT_IsoMu18)", (afterTrigger events).length),
   ("Exactly 2 good muons", (afterPair events).length),
   ("Opposite-sign muons", (afterOppositeSign events).length)]

/-- The pass-counts of the cutflow, in declaration order. -/
def cutflowCounts (events : List Event) : List Nat :=
  (cutflow events).map Prod.snd

/-- Merge of two partitions' counters: elementwise integer sum. -/
def mergeCounts (a b : List Nat) : List Nat :=
  List.zipWith (· + ·) a b

/-- Partitioned execution: each partition accumulates its own cutflow
counters, which are summed elementwise at the merge. -/
def mergedCutflowCounts (parts : List (List Event)) : List Nat :=
  parts.foldr (fun p acc => mergeCounts (cutflowCounts p) acc) [0, 0, 0]

/-! ### Kinematics

`calculateInvariantMass` builds two `ROOT::Math::PtEtaPhiMVector`s from the
masked columns at indices 0 and 1, adds them and takes `.M()`.  The library
converts a (pt, eta, phi, m) vector to Cartesian components
`px = pt·cos φ`, `py = pt·sin φ`, `pz = pt·sinh η`, `E = sqrt(px²+py²+pz²+m²)`,
adds componentwise, and `.M()` of the sum returns `sqrt(E²−p²)` when
`E²−p² ≥ 0` and `−sqrt(p²−E²)` otherwise (the tachyonic branch of
`PxPyPzE4D::M`). -/

/-- Cartesian x-momentum of a (pt, φ) object: `pt·cos φ`. -/
noncomputable def px (pt phi : ℝ) : ℝ := pt * Real.cos phi

/-- Cartesian y-momentum of a (pt, φ) object: `pt·sin φ`. -/
noncomputable def py (pt phi : ℝ) : ℝ := pt * Real.sin phi

/-- Cartesian z-momentum of a (pt, η) object: `pt·sinh η`. -/
noncomputable def pz (pt eta : ℝ) : ℝ := pt * Real.sinh eta

/-- Energy of a (pt, η, φ, m) object: `sqrt(px²+py²+pz²+m²)`. -/
noncomputable def energy (pt eta phi m : ℝ) : ℝ :=
  Real.sqrt (px pt phi ^ 2 + py pt phi ^ 2 + pz pt eta ^ 2 + m ^ 2)

/-- `PxPyPzE4D::M` applied to an invariant-mass-squared value `mm`:
`sqrt mm` when `mm ≥ 0`, `−sqrt(−mm)` on the tachyonic branch. -/
noncomputable def lorentzM (mm : ℝ) : ℝ :=
  if mm < 0 then -Real.sqrt (-mm) else Real.sqrt mm

/-- Invariant-mass-squared of the two-object system:
`(E1+E2)² − (px1+px2)² − (py1+py2)² − (pz1+pz2)²`. -/
noncomputable def sumM2 (pt1 eta1 phi1 m1 pt2 eta2 phi2 m2 : ℝ) : ℝ :=
  (energy pt1 eta1 phi1 m1 + energy pt2 eta2 phi2 m2) ^ 2
    - (px pt1 phi1 + px pt2 phi2) ^ 2
    - (py pt1 phi1 + py pt2 phi2) ^ 2
    - (pz pt1 eta1 + pz pt2 eta2) ^ 2

/-- `(mu1 + mu2).M()`: the invariant mass of the two-object system as the
library computes it. -/
noncomputable def invariantMass (pt1 eta1 phi1 m1 pt2 eta2 phi2 m2 : ℝ) : ℝ :=
  lorentzM (sumM2 pt1 eta1 phi1 m1 pt2 eta2 phi2 m2)

/-- The `dimuon_mass` column of `calculateInvariantMass`: the invariant
mass of the two masked objects at indices 0 and 1, with the final
`static_cast<float>` modelled by the abstract rounding `fl` applied to the
exact internally computed value. -/
noncomputable def dimuon_mass (fl : ℝ → ℝ) (e : Event) : ℝ :=
  fl (invariantMass
    ((goodMuon_pt e).getD 0 0 : ℝ) ((goodMuon_eta e).getD 0 0 : ℝ)
    ((goodMuon_phi e).getD 0 0 : ℝ) ((goodMuon_mass e).getD 0 0 : ℝ)
    ((goodMuon_pt e).getD 1 0 : ℝ) ((goodMuon_eta e).getD 1 0 : ℝ)
    ((goodMuon_phi e).getD 1 0 : ℝ) ((goodMuon_mass e).getD 1 0 : ℝ))

/-- Modelled from the spec (§4.5), for the refinement comparison: the
invariant mass written exactly as the spec's formula
`sqrt((E1+E2)² − (px1+px2)² − (py1+py2)² − (pz1+pz2)²)` with
`px = pt·cos φ`, `py = pt·sin φ`, `pz = pt·sinh η`, `E = sqrt(px²+py²+pz²+m²)`. -/
noncomputable def invariantMassSpec (pt1 eta1 phi1 m1 pt2 eta2 phi2 m2 : ℝ) : ℝ :=
  Real.sqrt
    ((Real.sqrt ((pt1 * Real.cos phi1) ^ 2 + (pt1 * Real.sin phi1) ^ 2
          + (pt1 * Real.sinh eta1) ^ 2 + m1 ^ 2)
        + Real.sqrt ((pt2 * Real.cos phi2) ^ 2 + (pt2 * Real.sin phi2) ^ 2
          + (pt2 * Real.sinh eta2) ^ 2 + m2 ^ 2)) ^ 2
      - (pt1 * Real.cos phi1 + pt2 * Real.cos phi2) ^ 2
      - (pt1 * Real.sin phi1 + pt2 * Real.sin phi2) ^ 2
      - (pt1 * Real.sinh eta1 + pt2 * Real.sinh eta2) ^ 2)

/-- The `muon1_pt` column: `goodMuon_pt[0]`. -/
def muon1_pt (e : Event) : ℚ := (goodMuon_pt e).getD 0 0

/-- The `muon2_pt` column: `goodMuon_pt[1]`. -/
def muon2_pt (e : Event) : ℚ := (goodMuon_pt e).getD 1 0

/-! ### Command line and exit codes

`parseArgs` (src/Analysis.cpp) walks the recognized options via
`getopt_long`; `-h` prints usage and exits 0, an unrecognized option
prints usage and exits 1.  `main` (src/main.cpp) returns 0 after a normal
run and 1 when an exception escapes the analysis. -/

/-- One command-line option as classified by `getopt_long`: a recognized
option with its argument, `-h`/`--help`, or an unrecognized option. -/
inductive CliOpt where
  | input (file : String)
  | output (file : String)
  | outdir (dir : String)
  | nevents (n : Nat)
  | help
  | unknown
deriving Repr, DecidableEq

/-- The defaults of `AnalysisConfig` as set by `parseArgs`. -/
def defaultConfig : AnalysisConfig :=
  { inputFile := "data.root", outputFile := "output.root",
    outputDir := ".", maxEvents := none }

/-- The option loop of `parseArgs`: recognized options update the config;
`-h` exits with code 0, an unrecognized option exits with code 1
(`std::exit(opt == 'h' ? 0 : 1)`), modelled as `Except` over the exit code. -/
def parseArgs : List CliOpt → AnalysisConfig → Except Nat AnalysisConfig
  | [], cfg => .ok cfg
  | .input s :: rest, cfg => parseArgs rest { cfg with inputFile := s }
  | .output s :: rest, cfg => parseArgs rest { cfg with outputFile := s }
  | .outdir s :: rest, cfg => parseArgs rest { cfg with outputDir := s }
  | .nevents n :: rest, cfg => parseArgs rest { cfg with maxEvents := some n }
  | .help :: _, _ => .error 0
  | .unknown :: _, _ => .error 1

/-- The exit code of `main`: the exit of `parseArgs` if it terminates the
process, otherwise 0 when the analysis runs to completion and 1 when an
exception escapes (`catch` block).  The analysis outcome is the abstract
`runResult`. -/
def mainExit (args : List CliOpt) (runResult : Except String Unit) : Nat :=
  match parseArgs args defaultConfig with
  | .error code => code
  | .ok _ =>
    match runResult with
    | .ok _ => 0
    | .error _ => 1

/-- A concrete well-formed event with two good opposite-sign muons,
used to instantiate the theorems below. -/
def sampleEvent : Event :=
  { HLT_IsoMu24 := true, HLT_IsoMu18 := false, nJet := 2,
    Muon_pt := [45, 40], Muon_eta := [1/10, -1/10], Muon_phi := [0, 3],
    Muon_mass := [21/200, 21/200], Muon_charge := [1, -1],
    Muon_tightId := [true, true], Muon_pfRelIso04_all := [1/100, 1/50] }

/-! ### Helper lemmas -/

theorem mask4_length : ∀ (pts etas : List ℚ) (tids : List Bool) (isos : List ℚ),
    etas.length = pts.length → tids.length = pts.length → isos.length = pts.length →
    (mask4 pts etas tids isos).length = pts.length := by
  intro pts
  induction pts with
  | nil =>
    intro etas tids isos h1 h2 h3
    cases etas <;> cases tids <;> cases isos <;> simp_all [mask4]
  | cons pt pts ih =>
    intro etas tids isos h1 h2 h3
    cases etas with
    | nil => simp at h1
    | cons eta etas =>
      cases tids with
      | nil => simp at h2
      | cons tid tids =>
        cases isos with
        | nil => simp at h3
        | cons iso isos =>
          simp only [mask4, List.length_cons, Nat.succ_inj]
          exact ih etas tids isos (by simpa using h1) (by simpa using h2) (by simpa using h3)

theorem mask4_get? : ∀ (pts etas : List ℚ) (tids : List Bool) (isos : List ℚ) (i : Nat),
    etas.length = pts.length → tids.length = pts.length → isos.length = pts.length →
    i < pts.length →
    (mask4 pts etas tids isos).get? i =
      some (muonCut (pts.getD i 0) (etas.getD i 0) (tids.getD i false) (isos.getD i 0)) := by
  intro pts
  induction pts with
  | nil => intro _ _ _ i _ _ _ hi; simp at hi
  | cons pt pts ih =>
    intro etas tids isos i h1 h2 h3 hi
    cases etas with
    | nil => simp at h1
    | cons eta etas =>
      cases tids with
      | nil => simp at h2
      | cons tid tids =>
        cases isos with
        | nil => simp at h3
        | cons iso isos =>
          cases i with
          | zero => simp [mask4]
          | succ i =>
            simp only [mask4, List.get?_cons_succ, List.getD_cons_succ]
            exact ih etas tids isos i (by simpa using h1) (by simpa using h2)
              (by simpa using h3) (by simpa using hi)

theorem sum_indicator_eq_count (l : List Bool) :
    (l.map (fun b => if b then (1 : ℤ) else 0)).sum = (l.count true : ℤ) := by
  induction l with
  | nil => simp
  | cons b l ih => cases b <;> simp [List.count_cons, ih] <;> ring

/-- `nGoodMuon` is the number of true entries of the mask. -/
theorem nGoodMuon_eq_count (e : Event) :
    nGoodMuon e = ((goodMuon_mask e).count true : ℤ) :=
  sum_indicator_eq_count (goodMuon_mask e)

theorem maskSelect_sublist {α : Type} : ∀ (m : List Bool) (xs : List α),
    List.Sublist (maskSelect m xs) xs := by
  intro m
  induction m with
  | nil => intro xs; cases xs <;> simp [maskSelect]
  | cons b ms ih =>
    intro xs
    cases xs with
    | nil => simp [maskSelect]
    | cons x xs =>
      cases b with
      | true => exact List.Sublist.cons₂ x (ih xs)
      | false => exact List.Sublist.cons x (ih xs)

theorem maskSelect_length {α : Type} : ∀ (m : List Bool) (xs : List α),
    m.length = xs.length → (maskSelect m xs).length = m.count true := by
  intro m
  induction m with
  | nil => intro xs _; simp [maskSelect]
  | cons b ms ih =>
    intro xs h
    cases xs with
    | nil => simp at h
    | cons x xs =>
      cases b with
      | true => simp [maskSelect, List.count_cons, ih xs (by simpa using h)]
      | false => simp [maskSelect, List.count_cons, ih xs (by simpa using h)]

theorem cutflowCounts_append (l1 l2 : List Event) :
    cutflowCounts (l1 ++ l2) = mergeCounts (cutflowCounts l1) (cutflowCounts l2) := by
  simp [cutflowCounts, cutflow, afterOppositeSign, afterPair, afterTrigger,
    mergeCounts, List.filter_append]

theorem mergedCutflowCounts_flatten : ∀ parts : List (List Event),
    mergedCutflowCounts parts = cutflowCounts parts.flatten := by
  intro parts
  induction parts with
  | nil => rfl
  | cons p parts ih =>
    have hstep : mergedCutflowCounts (p :: parts)
        = mergeCounts (cutflowCounts p) (mergedCutflowCounts parts) := rfl
    have hflat : (p :: parts).flatten = p ++ parts.flatten := rfl
    rw [hstep, ih, hflat, cutflowCounts_append]

/-- Cauchy–Schwarz in three real variables, square-root form. -/
theorem dot_le_sqrt_mul_sqrt (x1 y1 z1 x2 y2 z2 : ℝ) :
    x1 * x2 + y1 * y2 + z1 * z2 ≤
      Real.sqrt (x1 ^ 2 + y1 ^ 2 + z1 ^ 2) * Real.sqrt (x2 ^ 2 + y2 ^ 2 + z2 ^ 2) := by
  have hsq : (x1 * x2 + y1 * y2 + z1 * z2) ^ 2 ≤
      (x1 ^ 2 + y1 ^ 2 + z1 ^ 2) * (x2 ^ 2 + y2 ^ 2 + z2 ^ 2) := by
    nlinarith [sq_nonneg (x1 * y2 - y1 * x2), sq_nonneg (x1 * z2 - z1 * x2),
      sq_nonneg (y1 * z2 - z1 * y2)]
  calc x1 * x2 + y1 * y2 + z1 * z2 ≤ |x1 * x2 + y1 * y2 + z1 * z2| := le_abs_self _
    _ = Real.sqrt ((x1 * x2 + y1 * y2 + z1 * z2) ^ 2) := (Real.sqrt_sq_eq_abs _).symm
    _ ≤ Real.sqrt ((x1 ^ 2 + y1 ^ 2 + z1 ^ 2) * (x2 ^ 2 + y2 ^ 2 + z2 ^ 2)) :=
        Real.sqrt_le_sqrt hsq
    _ = Real.sqrt (x1 ^ 2 + y1 ^ 2 + z1 ^ 2) * Real.sqrt (x2 ^ 2 + y2 ^ 2 + z2 ^ 2) :=
        Real.sqrt_mul (by positivity) _

/-- The invariant-mass-squared of the sum of two on-shell four-vectors is
non-negative, in Cartesian components. -/
theorem M2_cart_nonneg (x1 y1 z1 m1 x2 y2 z2 m2 : ℝ) :
    0 ≤ (Real.sqrt (x1 ^ 2 + y1 ^ 2 + z1 ^ 2 + m1 ^ 2)
          + Real.sqrt (x2 ^ 2 + y2 ^ 2 + z2 ^ 2 + m2 ^ 2)) ^ 2
        - (x1 + x2) ^ 2 - (y1 + y2) ^ 2 - (z1 + z2) ^ 2 := by
  have h1 : Real.sqrt (x1 ^ 2 + y1 ^ 2 + z1 ^ 2)
      ≤ Real.sqrt (x1 ^ 2 + y1 ^ 2 + z1 ^ 2 + m1 ^ 2) :=
    Real.sqrt_le_sqrt (by nlinarith [sq_nonneg m1])
  have h2 : Real.sqrt (x2 ^ 2 + y2 ^ 2 + z2 ^ 2)
      ≤ Real.sqrt (x2 ^ 2 + y2 ^ 2 + z2 ^ 2 + m2 ^ 2) :=
    Real.sqrt_le_sqrt (by nlinarith [sq_nonneg m2])
  have e1 : Real.sqrt (x1 ^ 2 + y1 ^ 2 + z1 ^ 2 + m1 ^ 2) ^ 2
      = x1 ^ 2 + y1 ^ 2 + z1 ^ 2 + m1 ^ 2 := Real.sq_sqrt (by positivity)
  have e2 : Real.sqrt (x2 ^ 2 + y2 ^ 2 + z2 ^ 2 + m2 ^ 2) ^ 2
      = x2 ^ 2 + y2 ^ 2 + z2 ^ 2 + m2 ^ 2 := Real.sq_sqrt (by positivity)
  have hp : Real.sqrt (x1 ^ 2 + y1 ^ 2 + z1 ^ 2) * Real.sqrt (x2 ^ 2 + y2 ^ 2 + z2 ^ 2)
      ≤ Real.sqrt (x1 ^ 2 + y1 ^ 2 + z1 ^ 2 + m1 ^ 2)
          * Real.sqrt (x2 ^ 2 + y2 ^ 2 + z2 ^ 2 + m2 ^ 2) :=
    mul_le_mul h1 h2 (Real.sqrt_nonneg _) (Real.sqrt_nonneg _)
  have hd := le_trans (dot_le_sqrt_mul_sqrt x1 y1 z1 x2 y2 z2) hp
  nlinarith [e1, e2, hd]

/-- The invariant-mass-squared computed by the analysis is never negative:
the tachyonic branch of `PxPyPzE4D::M` is unreachable in exact arithmetic. -/
theorem sumM2_nonneg (pt1 eta1 phi1 m1 pt2 eta2 phi2 m2 : ℝ) :
    0 ≤ sumM2 pt1 eta1 phi1 m1 pt2 eta2 phi2 m2 := by
  unfold sumM2 energy
  exact M2_cart_nonneg (px pt1 phi1) (py pt1 phi1) (pz pt1 eta1) m1
    (px pt2 phi2) (py pt2 phi2) (pz pt2 eta2) m2

/-- On the non-tachyonic branch, `(mu1 + mu2).M()` is the plain square root
of the invariant-mass-squared. -/
theorem invariantMass_eq_sqrt (pt1 eta1 phi1 m1 pt2 eta2 phi2 m2 : ℝ) :
    invariantMass pt1 eta1 phi1 m1 pt2 eta2 phi2 m2
      = Real.sqrt (sumM2 pt1 eta1 phi1 m1 pt2 eta2 phi2 m2) := by
  unfold invariantMass lorentzM
  rw [if_neg (not_lt.mpr (sumM2_nonneg pt1 eta1 phi1 m1 pt2 eta2 phi2 m2))]

/-- The invariant mass computed by the code equals the spec's closed
formula. -/
theorem invariantMass_eq_specFormula (pt1 eta1 phi1 m1 pt2 eta2 phi2 m2 : ℝ) :
    invariantMass pt1 eta1 phi1 m1 pt2 eta2 phi2 m2
      = invariantMassSpec pt1 eta1 phi1 m1 pt2 eta2 phi2 m2 := by
  rw [invariantMass_eq_sqrt]
  unfold sumM2 energy px py pz invariantMassSpec
  rfl

/-! ### Claim theorems -/

/-- C1: for every event, the good-object mask is the elementwise AND of
(transverse momentum > 20, absolute pseudorapidity < 2.4, identification
flag true, isolation value < 0.15) over the event's muon arrays; the
mask's length equals the source array length, and `nGoodMuon` equals the
number of true entries in the mask. -/
theorem goodMuonMask_elementwise_and_count (e : Event) (hw : wellFormed e) :
    (goodMuon_mask e).length = e.Muon_pt.length ∧
    (∀ i, i < e.Muon_pt.length →
      (goodMuon_mask e).get? i = some
        (decide (e.Muon_pt.getD i 0 > 20) && decide (|e.Muon_eta.getD i 0| < 2.4) &&
          e.Muon_tightId.getD i false && decide (e.Muon_pfRelIso04_all.getD i 0 < 0.15))) ∧
    nGoodMuon e = ((goodMuon_mask e).count true : ℤ) := by
  obtain ⟨h1, h2, h3, h4, h5, h6⟩ := hw
  refine ⟨mask4_length _ _ _ _ h1 h5 h6, ?_, nGoodMuon_eq_count e⟩
  intro i hi
  rw [goodMuon_mask, mask4_get? _ _ _ _ i h1 h5 h6 hi]
  rfl

/-- C1 witness: the mask invariants hold at the concrete sample event. -/
theorem goodMuonMask_elementwise_and_count_witness :
    (goodMuon_mask sampleEvent).length = sampleEvent.Muon_pt.length ∧
    nGoodMuon sampleEvent = ((goodMuon_mask sampleEvent).count true : ℤ) :=
  ⟨(goodMuonMask_elementwise_and_count sampleEvent (by decide)).1,
   (goodMuonMask_elementwise_and_count sampleEvent (by decide)).2.2⟩

/-- C4: a row passes the trigger filter if and only if the OR of the two
configured boolean trigger columns `HLT_IsoMu24`, `HLT_IsoMu18` holds. -/
theorem triggerFilter_iff_or (events : List Event) (e : Event) :
    e ∈ afterTrigger events ↔
      e ∈ events ∧ (e.HLT_IsoMu24 || e.HLT_IsoMu18) = true := by
  simp [afterTrigger, List.mem_filter, passTrigger]

/-- C5: for any real pt, eta, phi and non-negative mass per object, the
invariant-mass output is non-negative. -/
theorem invariantMass_nonneg (pt1 eta1 phi1 m1 pt2 eta2 phi2 m2 : ℝ)
    (h1 : 0 ≤ m1) (h2 : 0 ≤ m2) :
    0 ≤ invariantMass pt1 eta1 phi1 m1 pt2 eta2 phi2 m2 := by
  rw [invariantMass_eq_sqrt]
  exact Real.sqrt_nonneg _

/-- C5 witness: non-negativity at a concrete two-muon input. -/
theorem invariantMass_nonneg_witness :
    (0 : ℝ) ≤ 21/200 ∧
    0 ≤ invariantMass 45 (1/10) 0 (21/200) 40 (-1/10) 3 (21/200) :=
  ⟨by norm_num,
   invariantMass_nonneg 45 (1/10) 0 (21/200) 40 (-1/10) 3 (21/200)
     (by norm_num) (by norm_num)⟩

/-- C3: for every event, the stored `dimuon_mass` equals
`sqrt((E1+E2)² − (px1+px2)² − (py1+py2)² − (pz1+pz2)²)` with
`px = pt·cos φ`, `py = pt·sin φ`, `pz = pt·sinh η`, `E = sqrt(px²+py²+pz²+m²)`
computed from the two masked objects, with the working-precision rounding
`fl` (the `static_cast<float>`) applied once to the exact value rather
than to the internal arithmetic. -/
theorem dimuonMass_eq_specFormula (fl : ℝ → ℝ) (e : Event) :
    dimuon_mass fl e = fl (invariantMassSpec
      ((goodMuon_pt e).getD 0 0 : ℝ) ((goodMuon_eta e).getD 0 0 : ℝ)
      ((goodMuon_phi e).getD 0 0 : ℝ) ((goodMuon_mass e).getD 0 0 : ℝ)
      ((goodMuon_pt e).getD 1 0 : ℝ) ((goodMuon_eta e).getD 1 0 : ℝ)
      ((goodMuon_phi e).getD 1 0 : ℝ) ((goodMuon_mass e).getD 1 0 : ℝ)) := by
  unfold dimuon_mass
  rw [invariantMass_eq_specFormula]

/-- C2: every event passing the exact-pair filter has `nGoodMuon = 2`
(exactly two true mask entries), and every event passing the
opposite-charge filter has a negative product of the charges of the two
surviving objects, which are the masked array's elements at positions 0
and 1 in original array order (the masked collection is a subsequence of
the source array: no sort is applied). -/
theorem dimuonSelection_pair_and_charge (events : List Event)
    (hw : ∀ e ∈ events, wellFormed e) :
    (∀ e ∈ afterPair events, nGoodMuon e = 2 ∧ (goodMuon_mask e).count true = 2) ∧
    (∀ e ∈ afterOppositeSign events,
      ∃ c0 c1, (goodMuon_charge e).get? 0 = some c0 ∧
        (goodMuon_charge e).get? 1 = some c1 ∧ c0 * c1 < 0 ∧
        List.Sublist (goodMuon_charge e) e.Muon_charge) := by
  have hpair : ∀ e ∈ afterPair events,
      nGoodMuon e = 2 ∧ (goodMuon_mask e).count true = 2 := by
    intro e he
    rw [afterPair, List.mem_filter] at he
    have h2 : nGoodMuon e = 2 := of_decide_eq_true he.2
    refine ⟨h2, ?_⟩
    have hc := (nGoodMuon_eq_count e).symm.trans h2
    exact_mod_cast hc
  refine ⟨hpair, ?_⟩
  intro e he
  rw [afterOppositeSign, List.mem_filter] at he
  obtain ⟨hep, hsign⟩ := he
  have hmem : e ∈ events := by
    have h := hep
    rw [afterPair, List.mem_filter] at h
    have h' := h.1
    rw [afterTrigger, List.mem_filter] at h'
    exact h'.1
  obtain ⟨h1, h2, h3, h4, h5, h6⟩ := hw e hmem
  have hcount : (goodMuon_mask e).count true = 2 := (hpair e hep).2
  have hmlen : (goodMuon_mask e).length = e.Muon_pt.length :=
    mask4_length _ _ _ _ h1 h5 h6
  have hclen : (goodMuon_charge e).length = 2 := by
    rw [goodMuon_charge, maskSelect_length _ _ (hmlen.trans h4.symm), hcount]
  have hprod : (goodMuon_charge e).getD 0 0 * (goodMuon_charge e).getD 1 0 < 0 :=
    of_decide_eq_true hsign
  cases hch : goodMuon_charge e with
  | nil => rw [hch] at hclen; simp at hclen
  | cons c0 rest =>
    cases rest with
    | nil => rw [hch] at hclen; simp at hclen
    | cons c1 rest2 =>
      rw [hch] at hprod
      refine ⟨c0, c1, rfl, rfl, by simpa using hprod, ?_⟩
      rw [← hch]
      exact maskSelect_sublist _ _

/-- C2 witness: the pair and charge conditions hold at the sample event,
which passes both filters. -/
theorem dimuonSelection_pair_and_charge_witness :
    nGoodMuon sampleEvent = 2 ∧ (goodMuon_mask sampleEvent).count true = 2 :=
  (dimuonSelection_pair_and_charge [sampleEvent] (by decide)).1 sampleEvent
    (by norm_num [afterPair, afterTrigger, List.filter, passTrigger, passPair,
      nGoodMuon, goodMuon_mask, sampleEvent, mask4, muonCut, abs_lt])

/-- C7: the cutflow is the ordered (label, pass-count) sequence in filter
declaration order, its pass-counts are monotonically non-increasing, each
stage filters exactly the survivors of the previous stage, and every row
counted by a filter passed that filter and every filter before it. -/
theorem cutflow_ordered_monotone (events : List Event) :
    (cutflow events).map Prod.fst =
      ["Trigger selection (HLT_IsoMu24 || HLT_IsoMu18)", "Exactly 2 good muons",
       "Opposite-sign muons"] ∧
    List.Chain' (fun a b => b ≤ a) ((cutflow events).map Prod.snd) ∧
    afterPair events = (afterTrigger events).filter passPair ∧
    afterOppositeSign events = (afterPair events).filter passOppositeSign ∧
    (∀ e ∈ afterPair events, passTrigger e = true ∧ passPair e = true) ∧
    (∀ e ∈ afterOppositeSign events,
      passTrigger e = true ∧ passPair e = true ∧ passOppositeSign e = true) := by
  refine ⟨rfl, ?_, rfl, rfl, ?_, ?_⟩
  · simp only [cutflow, List.map_cons, List.map_nil]
    refine List.chain'_cons.mpr ⟨?_, List.chain'_cons.mpr ⟨?_, List.chain'_singleton _⟩⟩
    · exact List.length_filter_le _ _
    · exact List.length_filter_le _ _
  · intro e he
    rw [afterPair, List.mem_filter] at he
    obtain ⟨het, hp⟩ := he
    rw [afterTrigger, List.mem_filter] at het
    exact ⟨het.2, hp⟩
  · intro e he
    rw [afterOppositeSign, List.mem_filter] at he
    obtain ⟨hep, hs⟩ := he
    rw [afterPair, List.mem_filter] at hep
    obtain ⟨het, hp⟩ := hep
    rw [afterTrigger, List.mem_filter] at het
    exact ⟨het.2, hp, hs⟩

/-- C7 witness: a row surviving all filters passed each of them. -/
theorem cutflow_ordered_monotone_witness :
    passTrigger sampleEvent = true ∧ passPair sampleEvent = true ∧
    passOppositeSign sampleEvent = true :=
  (cutflow_ordered_monotone [sampleEvent]).2.2.2.2.2 sampleEvent
    (by norm_num [afterOppositeSign, afterPair, afterTrigger, List.filter, passTrigger,
      passPair, passOppositeSign, nGoodMuon, goodMuon_mask, goodMuon_charge, sampleEvent,
      mask4, muonCut, abs_lt, maskSelect])

theorem get?_isSome_of_lt {α : Type} (l : List α) (i : Nat) (h : i < l.length) :
    (l.get? i).isSome = true := by
  have hne : l.get? i ≠ none := by
    intro hnone
    rw [List.get?_eq_none] at hnone
    omega
  exact Option.isSome_iff_ne_none.mpr hne

/-- C6: with a row limit the pipeline disables multithreading and
processes exactly the first `n` rows of the source; without a row limit
parallel execution is enabled. -/
theorem rowLimit_concurrency_mode (maxEvents : Option Nat) (events : List Event) :
    (∀ n, maxEvents = some n →
      multithreadingEnabled maxEvents = false ∧
      applyRange maxEvents events = events.take n ∧
      (applyRange maxEvents events).length = min n events.length ∧
      ∀ i, i < n → (applyRange maxEvents events).get? i = events.get? i) ∧
    (maxEvents = none →
      multithreadingEnabled maxEvents = true ∧ applyRange maxEvents events = events) := by
  constructor
  · rintro n rfl
    refine ⟨rfl, rfl, ?_, ?_⟩
    · simp [applyRange, List.length_take]
    · intro i hi
      simp only [applyRange]
      exact List.get?_take hi
  · rintro rfl
    exact ⟨rfl, rfl⟩

/-- C6 witness: the two modes at a concrete configuration. -/
theorem rowLimit_concurrency_mode_witness :
    multithreadingEnabled (some 1) = false ∧
    applyRange (some 1) [sampleEvent, sampleEvent] = [sampleEvent] ∧
    multithreadingEnabled (none : Option Nat) = true :=
  ⟨((rowLimit_concurrency_mode (some 1) [sampleEvent, sampleEvent]).1 1 rfl).1,
   ((rowLimit_concurrency_mode (some 1) [sampleEvent, sampleEvent]).1 1 rfl).2.1,
   ((rowLimit_concurrency_mode none [sampleEvent, sampleEvent]).2 rfl).1⟩

/-- C8: the cutflow counters are a pure function of the input row list:
any two partitionings of the same input merge to the same counters, and
the merged counters equal the sequential (single-partition) counters —
partition-count-independent integer sums. -/
theorem cutflow_partition_invariance (parts1 parts2 : List (List Event))
    (events : List Event) (h1 : parts1.flatten = events) (h2 : parts2.flatten = events) :
    mergedCutflowCounts parts1 = cutflowCounts events ∧
    mergedCutflowCounts parts2 = cutflowCounts events ∧
    mergedCutflowCounts parts1 = mergedCutflowCounts parts2 := by
  have e1 : mergedCutflowCounts parts1 = cutflowCounts events := by
    rw [mergedCutflowCounts_flatten, h1]
  have e2 : mergedCutflowCounts parts2 = cutflowCounts events := by
    rw [mergedCutflowCounts_flatten, h2]
  exact ⟨e1, e2, e1.trans e2.symm⟩

/-- C8 witness: two concrete partitionings of the same one-event input
merge to the sequential counters. -/
theorem cutflow_partition_invariance_witness :
    mergedCutflowCounts [[sampleEvent], []] = cutflowCounts [sampleEvent] ∧
    mergedCutflowCounts [[sampleEvent], []] = mergedCutflowCounts [[], [sampleEvent]] :=
  ⟨(cutflow_partition_invariance [[sampleEvent], []] [[], [sampleEvent]]
      [sampleEvent] rfl rfl).1,
   (cutflow_partition_invariance [[sampleEvent], []] [[], [sampleEvent]]
      [sampleEvent] rfl rfl).2.2⟩

/-- C9: the program exits with code 0 on success (arguments accepted and
the analysis runs to completion), with code 1 on an argument error, and
with code 1 on a fatal runtime error (an exception escaping the
analysis). -/
theorem exitCode_spec (args : List CliOpt) (runResult : Except String Unit) :
    (∀ cfg, parseArgs args defaultConfig = .ok cfg → runResult = .ok () →
      mainExit args runResult = 0) ∧
    (parseArgs args defaultConfig = .error 1 → mainExit args runResult = 1) ∧
    (∀ cfg msg, parseArgs args defaultConfig = .ok cfg → runResult = .error msg →
      mainExit args runResult = 1) := by
  refine ⟨?_, ?_, ?_⟩
  · intro cfg hp hr
    simp [mainExit, hp, hr]
  · intro hp
    simp [mainExit, hp]
  · intro cfg msg hp hr
    simp [mainExit, hp, hr]

/-- C9 witness: the three exit paths at concrete inputs. -/
theorem exitCode_spec_witness :
    mainExit [CliOpt.input "data.root"] (Except.ok ()) = 0 ∧
    mainExit [CliOpt.unknown] (Except.ok ()) = 1 ∧
    mainExit [] (Except.error "fatal") = 1 :=
  ⟨(exitCode_spec [CliOpt.input "data.root"] (Except.ok ())).1
      { defaultConfig with inputFile := "data.root" } rfl rfl,
   (exitCode_spec [CliOpt.unknown] (Except.ok ())).2.1 rfl,
   (exitCode_spec [] (Except.error "fatal")).2.2 defaultConfig "fatal" rfl rfl⟩

/-- C10: for every well-formed row with `nGoodMuon = 2`, all five masked
collections have length exactly 2, so the element accesses at indices 0
and 1 (charge in the opposite-sign filter; pt, eta, phi, mass in the
invariant-mass and per-muon momentum definitions) are in bounds. -/
theorem maskedAccess_inBounds (e : Event) (hw : wellFormed e) (hn : nGoodMuon e = 2) :
    (goodMuon_charge e).length = 2 ∧ (goodMuon_pt e).length = 2 ∧
    (goodMuon_eta e).length = 2 ∧ (goodMuon_phi e).length = 2 ∧
    (goodMuon_mass e).length = 2 ∧
    ∀ i, i < 2 →
      ((goodMuon_charge e).get? i).isSome = true ∧
      ((goodMuon_pt e).get? i).isSome = true ∧
      ((goodMuon_eta e).get? i).isSome = true ∧
      ((goodMuon_phi e).get? i).isSome = true ∧
      ((goodMuon_mass e).get? i).isSome = true := by
  obtain ⟨h1, h2, h3, h4, h5, h6⟩ := hw
  have hcount : (goodMuon_mask e).count true = 2 := by
    have hc := (nGoodMuon_eq_count e).symm.trans hn
    exact_mod_cast hc
  have hmlen : (goodMuon_mask e).length = e.Muon_pt.length :=
    mask4_length _ _ _ _ h1 h5 h6
  have lc : (goodMuon_charge e).length = 2 := by
    rw [goodMuon_charge, maskSelect_length _ _ (hmlen.trans h4.symm), hcount]
  have lpt : (goodMuon_pt e).length = 2 := by
    rw [goodMuon_pt, maskSelect_length _ _ hmlen, hcount]
  have leta : (goodMuon_eta e).length = 2 := by
    rw [goodMuon_eta, maskSelect_length _ _ (hmlen.trans h1.symm), hcount]
  have lphi : (goodMuon_phi e).length = 2 := by
    rw [goodMuon_phi, maskSelect_length _ _ (hmlen.trans h2.symm), hcount]
  have lmass : (goodMuon_mass e).length = 2 := by
    rw [goodMuon_mass, maskSelect_length _ _ (hmlen.trans h3.symm), hcount]
  refine ⟨lc, lpt, leta, lphi, lmass, ?_⟩
  intro i hi
  exact ⟨get?_isSome_of_lt _ i (by omega), get?_isSome_of_lt _ i (by omega),
    get?_isSome_of_lt _ i (by omega), get?_isSome_of_lt _ i (by omega),
    get?_isSome_of_lt _ i (by omega)⟩

/-- C10 witness: the bounds hold at the sample event. -/
theorem maskedAccess_inBounds_witness :
    (goodMuon_charge sampleEvent).length = 2 ∧ (goodMuon_pt sampleEvent).length = 2 :=
  ⟨(maskedAccess_inBounds sampleEvent (by decide)
      (by norm_num [nGoodMuon, goodMuon_mask, sampleEvent, mask4, muonCut, abs_lt])).1,
   (maskedAccess_inBounds sampleEvent (by decide)
      (by norm_num [nGoodMuon, goodMuon_mask, sampleEvent, mask4, muonCut, abs_lt])).2.1⟩

end Dimuon
